import Mathlib

/-!
Verification of the Veritas belief-aggregation modules
(`veritas-agent`, `veritas-belief`, `veritas-submission`).

The Rust modules are shallowly embedded: every state map becomes a
function `Nat → Option _` (addresses and belief ids are modelled as
natural numbers), `u64`/`u128` values become `Nat` with explicit
saturation (`sadd64`, `smul64`) and wrapping (`% U64MOD`, `% U128MOD`)
exactly where the Rust code saturates or can overflow, and every
fallible operation returns its `anyhow` error message together with the
state as written up to the point of return (so atomicity of the caller
is a provable property, not a modelling artefact).
-/

namespace Veritas

/-- `2 ^ 64`, the modulus of `u64` arithmetic. -/
def U64MOD : Nat := 2 ^ 64

/-- `u64::MAX`. -/
def U64MAX : Nat := 2 ^ 64 - 1

/-- `2 ^ 128`, the modulus of `u128` arithmetic. -/
def U128MOD : Nat := 2 ^ 128

/-- `u64::saturating_add`. -/
def sadd64 (a b : Nat) : Nat := min (a + b) U64MAX

/-- `u64::saturating_mul`. -/
def smul64 (a b : Nat) : Nat := min (a * b) U64MAX

/-- Fixed-point scale: `10000` represents probability `1.0`
(`pub const SCALE: u64 = 10000`). -/
def SCALE : Nat := 10000

/-- `veritas_agent::Agent`. -/
structure Agent where
  stake : Nat
  score : Nat
deriving DecidableEq, Repr

/-- `veritas_belief::Belief`. -/
structure Belief where
  id : Nat
  question : String
  aggregate : Nat
  total_weight : Nat
deriving DecidableEq, Repr

/-- `veritas_submission::Submission`.  The final field is the
`timestamp` field of the Rust struct, which the code always sets to 0. -/
structure Submission where
  agent : Nat
  belief_id : Nat
  value : Nat
  weight : Nat
  timestamp : Nat
deriving DecidableEq, Repr

/-- Point update of a state map (`StateMap::set`). -/
def mapSet {α : Type} (m : Nat → Option α) (k : Nat) (v : α) : Nat → Option α :=
  fun i => if i = k then some v else m i

/-- The state owned by `AgentModule`: the `agents` `StateMap`. -/
structure AgentSt where
  agents : Nat → Option Agent

/-- The state owned by `BeliefModule`: the `beliefs` map, the
`next_belief_id` `StateValue` (`none` when never set) and the
`submission_counts` map. -/
structure BeliefsSt where
  beliefs : Nat → Option Belief
  next_belief_id : Option Nat
  submission_counts : Nat → Option Nat

/-- The full system state: both leaf modules plus the `submissions`
`StateVec` of `SubmissionModule`. -/
structure SysSt where
  agentSt : AgentSt
  beliefSt : BeliefsSt
  submissions : List Submission

/-- `AgentModule::register_agent`. -/
def register_agent (sender initial_stake : Nat) (st : AgentSt) :
    Except String Unit × AgentSt :=
  match st.agents sender with
  | some _ => (Except.error "Agent already registered", st)
  | none =>
    if initial_stake = 0 then
      (Except.error "Initial stake must be greater than zero", st)
    else
      (Except.ok (), ⟨mapSet st.agents sender ⟨initial_stake, 100⟩⟩)

/-- `AgentModule::add_stake`. -/
def add_stake (sender amount : Nat) (st : AgentSt) :
    Except String Unit × AgentSt :=
  match st.agents sender with
  | none => (Except.error "Agent not registered", st)
  | some agent =>
    (Except.ok (), ⟨mapSet st.agents sender ⟨sadd64 agent.stake amount, agent.score⟩⟩)

/-- `AgentModule::withdraw_stake`.  After the `stake < amount` check the
`saturating_sub` equals plain (truncated) subtraction. -/
def withdraw_stake (sender amount : Nat) (st : AgentSt) :
    Except String Unit × AgentSt :=
  match st.agents sender with
  | none => (Except.error "Agent not registered", st)
  | some agent =>
    if agent.stake < amount then
      (Except.error "Insufficient stake balance", st)
    else
      (Except.ok (), ⟨mapSet st.agents sender ⟨agent.stake - amount, agent.score⟩⟩)

/-- `AgentModule::update_score` (an ordinary method, not reachable from
`CallMessage`). -/
def update_score (address delta : Nat) (st : AgentSt) :
    Except String Unit × AgentSt :=
  match st.agents address with
  | none => (Except.error "Agent not registered", st)
  | some agent =>
    (Except.ok (), ⟨mapSet st.agents address ⟨agent.stake, sadd64 agent.score delta⟩⟩)

/-- `AgentModule::get_weight` (read-only). -/
def get_weight (address : Nat) (st : AgentSt) : Except String Nat :=
  match st.agents address with
  | none => Except.error "Agent not registered"
  | some agent => Except.ok (smul64 agent.stake agent.score)

/-- `veritas_agent::CallMessage`. -/
inductive AgentCallMessage
  | RegisterAgent (initial_stake : Nat)
  | AddStake (amount : Nat)
  | WithdrawStake (amount : Nat)
deriving DecidableEq, Repr

/-- `AgentModule::call`: dispatch on the `CallMessage` variants. -/
def agentCall (msg : AgentCallMessage) (sender : Nat) (st : AgentSt) :
    Except String Unit × AgentSt :=
  match msg with
  | .RegisterAgent s => register_agent sender s st
  | .AddStake a => add_stake sender a st
  | .WithdrawStake a => withdraw_stake sender a st

/-- `AgentModule::genesis`: store each configured `(address, agent)` pair. -/
def agentGenesis (cfg : List (Nat × Agent)) : AgentSt :=
  ⟨cfg.foldl (fun m p => mapSet m p.1 p.2) (fun _ => none)⟩

/-- `BeliefModule::create_belief`.  `StateValue::get` on a never-set
value yields `None`, hence `unwrap_or(1)`; the counter increment is a
`u64` addition. -/
def create_belief (question : String) (initial_value : Nat) (st : BeliefsSt) :
    Except String Nat × BeliefsSt :=
  if initial_value > SCALE then
    (Except.error "Initial value must be between 0 and 10000", st)
  else if question.isEmpty then
    (Except.error "Question cannot be empty", st)
  else
    let current_id := st.next_belief_id.getD 1
    let belief : Belief := ⟨current_id, question, initial_value, 0⟩
    (Except.ok current_id,
      ⟨mapSet st.beliefs current_id belief,
       some ((current_id + 1) % U64MOD),
       mapSet st.submission_counts current_id 0⟩)

/-- `BeliefModule::update_aggregate`.  The two contributions are `u128`
products of `u64` values (exact for in-range fields); their sum is a
`u128` addition (`% U128MOD`); the quotient is cast back with `as u64`
(`% U64MOD`); the stored `total_weight` uses `saturating_add`; the
submission counter increment is a `u64` addition. -/
def update_aggregate (belief_id value weight : Nat) (st : BeliefsSt) :
    Except String Nat × BeliefsSt :=
  if value > SCALE then
    (Except.error "Value must be between 0 and 10000", st)
  else
    match st.beliefs belief_id with
    | none => (Except.error "Belief not found", st)
    | some belief =>
      let old_total_weight := belief.total_weight
      let new_total_weight := sadd64 old_total_weight weight
      let new_aggregate :=
        if new_total_weight > 0 then
          let old_contribution := belief.aggregate * old_total_weight
          let new_contribution := value * weight
          let total_contribution := (old_contribution + new_contribution) % U128MOD
          (total_contribution / new_total_weight) % U64MOD
        else
          value
      let belief2 : Belief :=
        ⟨belief.id, belief.question, new_aggregate, sadd64 belief.total_weight weight⟩
      let count := (st.submission_counts belief_id).getD 0
      (Except.ok new_aggregate,
        ⟨mapSet st.beliefs belief_id belief2,
         st.next_belief_id,
         mapSet st.submission_counts belief_id ((count + 1) % U64MOD)⟩)

/-- One iteration of the loop in `BeliefModule::genesis`: store the
belief, zero its submission count, then raise `next_belief_id` to
`belief.id + 1` (a `u64` addition) when `belief.id >= next_id`. -/
def beliefGenesisStep (st : BeliefsSt) (b : Belief) : BeliefsSt :=
  let st1 : BeliefsSt :=
    ⟨mapSet st.beliefs b.id b, st.next_belief_id, mapSet st.submission_counts b.id 0⟩
  let next_id := st1.next_belief_id.getD 1
  if b.id ≥ next_id then
    ⟨st1.beliefs, some ((b.id + 1) % U64MOD), st1.submission_counts⟩
  else
    st1

/-- `BeliefModule::genesis` over the configured `initial_beliefs`. -/
def beliefGenesis (cfg : List Belief) : BeliefsSt :=
  cfg.foldl beliefGenesisStep ⟨fun _ => none, none, fun _ => none⟩

/-- `SubmissionModule::submit_belief`.  The `_score_delta` is computed
exactly as in the code and then discarded (the `TODO` in the source:
scores are never updated).  On an error from `update_aggregate` the
belief-state returned by that call is threaded through, so the absence
of partial writes is provable rather than assumed. -/
def submit_belief (sender belief_id value : Nat) (st : SysSt) :
    Except String Unit × SysSt :=
  if value > SCALE then
    (Except.error "Value must be between 0 and 10000", st)
  else
    match get_weight sender st.agentSt with
    | Except.error e => (Except.error e, st)
    | Except.ok weight =>
      if weight = 0 then
        (Except.error "Agent has no weight (stake × score = 0)", st)
      else
        match update_aggregate belief_id value weight st.beliefSt with
        | (Except.error e, bst) => (Except.error e, ⟨st.agentSt, bst, st.submissions⟩)
        | (Except.ok new_aggregate, bst) =>
          let distance :=
            if value > new_aggregate then value - new_aggregate else new_aggregate - value
          let _score_delta :=
            if distance = 0 then (100 : Nat)
            else smul64 100 SCALE / ((SCALE + distance) % U64MOD)
          (Except.ok (),
            ⟨st.agentSt, bst, st.submissions ++ [⟨sender, belief_id, value, weight, 0⟩]⟩)

/-- `SubmissionModule::genesis` plus the genesis of both leaves: the
whole-system initial state. -/
def sysGenesis (acfg : List (Nat × Agent)) (bcfg : List Belief)
    (scfg : List Submission) : SysSt :=
  ⟨agentGenesis acfg, beliefGenesis bcfg, scfg⟩

/-- The externally triggerable operations of the system (the three
`CallMessage` surfaces plus the admin `create_belief` path). -/
inductive Op
  | agentOp (sender : Nat) (msg : AgentCallMessage)
  | createBelief (question : String) (initial_value : Nat)
  | submitOp (sender : Nat) (belief_id : Nat) (value : Nat)

/-- Apply one operation as one transaction: the host discards all
writes of a failed call. -/
def applyOp (st : SysSt) (op : Op) : SysSt :=
  match op with
  | .agentOp sender msg =>
    match agentCall msg sender st.agentSt with
    | (Except.ok _, ast) => ⟨ast, st.beliefSt, st.submissions⟩
    | (Except.error _, _) => st
  | .createBelief q v =>
    match create_belief q v st.beliefSt with
    | (Except.ok _, bst) => ⟨st.agentSt, bst, st.submissions⟩
    | (Except.error _, _) => st
  | .submitOp sender bid v =>
    match submit_belief sender bid v st with
    | (Except.ok _, st2) => st2
    | (Except.error _, _) => st

/-- Run a sequence of operations. -/
def runOps (ops : List Op) (st : SysSt) : SysSt := ops.foldl applyOp st

/-- Modelled from the spec: the §4.2 weighted-average formula
`new_aggregate = (A0·W0 + value·weight) / W1` with the numerator exact
(arbitrary precision, no intermediate saturation) and `W1 =
saturating_add(W0, weight)`, `value` itself when `W1 = 0`.  Used to
compare the code's `u128` computation against the exact one. -/
def specNewAggregate (A0 W0 value weight : Nat) : Nat :=
  let W1 := sadd64 W0 weight
  if W1 = 0 then value else (A0 * W0 + value * weight) / W1

/-- The effective id counter: `next_belief_id.get()?.unwrap_or(1)`. -/
def effectiveNextId (st : BeliefsSt) : Nat := st.next_belief_id.getD 1

/-- Every stored belief id lies strictly below the effective counter. -/
def BeliefIdInv (st : BeliefsSt) : Prop :=
  ∀ i, (st.beliefs i).isSome → i < effectiveNextId st

/-- The empty belief state (no beliefs, counter never set). -/
def emptyBeliefsSt : BeliefsSt := ⟨fun _ => none, none, fun _ => none⟩

/-- A fresh system state with one genesis agent of weight 1000 at
address 5 and one genesis belief 1 at aggregate 5000. -/
def oneAgentOneBeliefSys : SysSt :=
  sysGenesis [(5, ⟨10, 100⟩)] [⟨1, "q", 5000, 0⟩] []

theorem u64max_add_one : U64MAX + 1 = U64MOD := by decide

theorem list_getElem?_concat {α : Type} (l : List α) (a : α) :
    (l ++ [a])[l.length]? = some a := by
  induction l with
  | nil => rfl
  | cons x xs ih => simp

/-- The position of `sadd64` between its operand sum and `U64MAX`. -/
theorem sadd64_cases (a b : Nat) :
    (a + b ≤ U64MAX ∧ sadd64 a b = a + b) ∨
    (U64MAX < a + b ∧ sadd64 a b = U64MAX) := by
  rcases le_or_lt (a + b) U64MAX with h | h
  · exact Or.inl ⟨h, min_eq_left h⟩
  · exact Or.inr ⟨h, min_eq_right h.le⟩

/-- Core arithmetic of `update_aggregate`: for an in-range aggregate and
value the `u128` modulus and the final `as u64` cast are both inert, so
the code computes the exact weighted average. -/
theorem aggregate_u128_exact (A0 W0 v w : Nat) (ha : A0 ≤ SCALE) (hv : v ≤ SCALE)
    (hw0 : W0 ≤ U64MAX) (hw : w ≤ U64MAX) (hpos : 0 < sadd64 W0 w) :
    (A0 * W0 + v * w) % U128MOD / sadd64 W0 w % U64MOD
      = (A0 * W0 + v * w) / sadd64 W0 w := by
  have hsum : A0 * W0 + v * w ≤ SCALE * (W0 + w) := by
    calc A0 * W0 + v * w ≤ SCALE * W0 + SCALE * w :=
          Nat.add_le_add (Nat.mul_le_mul_right W0 ha) (Nat.mul_le_mul_right w hv)
      _ = SCALE * (W0 + w) := (Nat.mul_add SCALE W0 w).symm
  have hw2 : W0 + w ≤ 2 * sadd64 W0 w := by
    rcases sadd64_cases W0 w with ⟨h1, h2⟩ | ⟨h1, h2⟩
    · omega
    · have : W0 + w ≤ 2 * U64MAX := by
        have := Nat.add_le_add hw0 hw
        omega
      omega
  have hmod128 : (A0 * W0 + v * w) % U128MOD = A0 * W0 + v * w := by
    apply Nat.mod_eq_of_lt
    calc A0 * W0 + v * w ≤ SCALE * (W0 + w) := hsum
      _ ≤ SCALE * (2 * U64MAX) := by
          apply Nat.mul_le_mul_left
          have := Nat.add_le_add hw0 hw
          omega
      _ < U128MOD := by decide
  rw [hmod128]
  apply Nat.mod_eq_of_lt
  rw [Nat.div_lt_iff_lt_mul hpos]
  calc A0 * W0 + v * w ≤ SCALE * (W0 + w) := hsum
    _ ≤ SCALE * (2 * sadd64 W0 w) := Nat.mul_le_mul_left SCALE hw2
    _ = (2 * SCALE) * sadd64 W0 w := by ring
    _ < U64MOD * sadd64 W0 w := (Nat.mul_lt_mul_right hpos).mpr (by decide)

/-- The concrete C1 trace: `create_belief "q" 5000`, then two calls
`update_aggregate 1 10000 u64::MAX` on the resulting belief 1. -/
def c1TraceSt0 : BeliefsSt := (create_belief "q" 5000 emptyBeliefsSt).2

def c1TraceSt1 : BeliefsSt := (update_aggregate 1 10000 U64MAX c1TraceSt0).2

def c1TraceSt2 : BeliefsSt := (update_aggregate 1 10000 U64MAX c1TraceSt1).2

/-- C1: the invariant `aggregate ≤ SCALE` is violated by the code.  On
the reachable belief created by `create_belief "q" 5000` and updated
twice with value `10000 ≤ SCALE` and weight `u64::MAX`, the second
`update_aggregate` divides the exact numerator by the saturated total
weight and returns and persists aggregate `20000 > SCALE`. -/
theorem c1_aggregate_exceeds_scale_on_code :
    (update_aggregate 1 10000 U64MAX c1TraceSt1).1 = Except.ok 20000 ∧
    (c1TraceSt2.beliefs 1).map Belief.aggregate = some 20000 ∧
    SCALE < 20000 :=
  ⟨rfl, by decide, by decide⟩

/-- C2 (amended): for every belief whose current aggregate `A0` is at
most `SCALE`, every value `≤ SCALE` and every weight,
`update_aggregate` returns the exact weighted average
`⌊(A0·W0 + value·weight) / W1⌋` (and `value` itself when `W1 = 0`,
where `W1 = saturating_add(W0, weight)`), and persists it together with
`total_weight = W1`. -/
theorem c2_update_aggregate_weighted_average (st : BeliefsSt)
    (belief_id value weight : Nat) (b : Belief) (hb : st.beliefs belief_id = some b)
    (hv : value ≤ SCALE) (ha : b.aggregate ≤ SCALE)
    (hw0 : b.total_weight ≤ U64MAX) (hw : weight ≤ U64MAX) :
    (update_aggregate belief_id value weight st).1 =
      Except.ok (specNewAggregate b.aggregate b.total_weight value weight) ∧
    (update_aggregate belief_id value weight st).2.beliefs belief_id =
      some ⟨b.id, b.question,
            specNewAggregate b.aggregate b.total_weight value weight,
            sadd64 b.total_weight weight⟩ := by
  have hagg :
      (if 0 < sadd64 b.total_weight weight then
        (b.aggregate * b.total_weight + value * weight) % U128MOD
          / sadd64 b.total_weight weight % U64MOD
      else value)
        = specNewAggregate b.aggregate b.total_weight value weight := by
    unfold specNewAggregate
    rcases Nat.eq_zero_or_pos (sadd64 b.total_weight weight) with h0 | hpos
    · simp [h0]
    · rw [if_pos hpos, if_neg (Nat.pos_iff_ne_zero.mp hpos),
        aggregate_u128_exact b.aggregate b.total_weight value weight ha hv hw0 hw hpos]
  constructor
  · simp only [update_aggregate, if_neg (not_lt.mpr hv), hb]
    exact congrArg Except.ok hagg
  · simp only [update_aggregate, if_neg (not_lt.mpr hv), hb, mapSet]
    rw [hagg]
    simp

/-- The state used in the C2 counterexample: a single genesis-style
belief whose aggregate and total weight are both `u64::MAX`. -/
def c2SaturatedSt : BeliefsSt :=
  ⟨fun i => if i = 1 then some ⟨1, "q", U64MAX, U64MAX⟩ else none, some 2,
   fun i => if i = 1 then some 0 else none⟩

/-- C2 counterexample: on a belief with `A0 = W0 = u64::MAX` and the
call `update_aggregate 1 10000 u64::MAX`, the `u128` numerator
overflows and the code returns `9997`, not the exact
`⌊(A0·W0 + value·weight)/W1⌋ = 2^64 + 9999`: the claim that the result
is always the exactly computed quotient is false. -/
theorem c2_exactness_fails_on_saturated_state :
    (update_aggregate 1 10000 U64MAX c2SaturatedSt).1 = Except.ok 9997 ∧
    specNewAggregate U64MAX U64MAX 10000 U64MAX = U64MOD + 9999 ∧
    (9997 : Nat) ≠ U64MOD + 9999 :=
  ⟨rfl, by decide, by decide⟩

/-- C2 witness: the first-submission example of the claim —
`create_belief "q" 5000` then `update_aggregate id 8000 10` returns
exactly `8000` and stores `total_weight = 10`. -/
theorem c2_update_aggregate_weighted_average_witness :
    (update_aggregate 1 8000 10 c1TraceSt0).1 =
      Except.ok (specNewAggregate 5000 0 8000 10) ∧
    (update_aggregate 1 8000 10 c1TraceSt0).2.beliefs 1 =
      some ⟨1, "q", specNewAggregate 5000 0 8000 10, sadd64 0 10⟩ :=
  c2_update_aggregate_weighted_average c1TraceSt0 1 8000 10 ⟨1, "q", 5000, 0⟩
    (by decide) (by decide) (by decide) (by decide) (by decide)

/-- C3: replaying an identical operation sequence on two instances
started from the same genesis configuration yields identical final
states: every operation is a function of the current state and its
arguments. -/
theorem c3_replay_determinism (acfg : List (Nat × Agent)) (bcfg : List Belief)
    (scfg : List Submission) (ops : List Op) (s1 s2 : SysSt)
    (h1 : s1 = runOps ops (sysGenesis acfg bcfg scfg))
    (h2 : s2 = runOps ops (sysGenesis acfg bcfg scfg)) : s1 = s2 :=
  h1.trans h2.symm

/-- C3 witness at a concrete genesis and operation sequence. -/
theorem c3_replay_determinism_witness :
    runOps [Op.agentOp 5 (AgentCallMessage.RegisterAgent 10), Op.submitOp 5 1 7000]
      (sysGenesis [] [⟨1, "q", 5000, 0⟩] []) =
    runOps [Op.agentOp 5 (AgentCallMessage.RegisterAgent 10), Op.submitOp 5 1 7000]
      (sysGenesis [] [⟨1, "q", 5000, 0⟩] []) :=
  c3_replay_determinism [] [⟨1, "q", 5000, 0⟩] []
    [Op.agentOp 5 (AgentCallMessage.RegisterAgent 10), Op.submitOp 5 1 7000]
    _ _ rfl rfl

/-- C6: `get_weight` returns exactly `stake × score` clamped at
`u64::MAX` for a registered agent and fails `NotRegistered` otherwise. -/
theorem c6_get_weight_clamped_product (addr : Nat) (st : AgentSt) :
    (∀ a, st.agents addr = some a →
      get_weight addr st =
        Except.ok (if a.stake * a.score ≤ U64MAX then a.stake * a.score else U64MAX)) ∧
    (st.agents addr = none → get_weight addr st = Except.error "Agent not registered") := by
  constructor
  · intro a ha
    simp [get_weight, ha, smul64, min_def]
  · intro ha
    simp [get_weight, ha]

/-- C6 witness: a saturating case (`stake = score = 2^33` clamps to
`u64::MAX`) and the sibling agent. -/
theorem c6_get_weight_clamped_product_witness :
    get_weight 7 ⟨fun i => if i = 7 then some ⟨2 ^ 33, 2 ^ 33⟩ else none⟩ =
      Except.ok (if 2 ^ 33 * 2 ^ 33 ≤ U64MAX then 2 ^ 33 * 2 ^ 33 else U64MAX) :=
  (c6_get_weight_clamped_product 7 ⟨fun i => if i = 7 then some ⟨2 ^ 33, 2 ^ 33⟩ else none⟩).1
    ⟨2 ^ 33, 2 ^ 33⟩ (by decide)

/-- C7: `register_agent` is exactly-once: a second registration always
fails `AlreadyRegistered` (for any stake, 0 included) leaving the state
unchanged; a fresh registration fails `InvalidStake` on stake 0 and
otherwise creates `Agent {stake, score = 100}` touching no other
address. -/
theorem c7_register_exactly_once (sender initial_stake : Nat) (st : AgentSt) :
    (∀ a, st.agents sender = some a →
      register_agent sender initial_stake st =
        (Except.error "Agent already registered", st)) ∧
    (st.agents sender = none → initial_stake = 0 →
      register_agent sender initial_stake st =
        (Except.error "Initial stake must be greater than zero", st)) ∧
    (st.agents sender = none → initial_stake ≠ 0 →
      (register_agent sender initial_stake st).1 = Except.ok () ∧
      (register_agent sender initial_stake st).2.agents sender =
        some ⟨initial_stake, 100⟩ ∧
      ∀ other, other ≠ sender →
        (register_agent sender initial_stake st).2.agents other = st.agents other) := by
  refine ⟨?_, ?_, ?_⟩
  · intro a ha
    simp [register_agent, ha]
  · intro ha h0
    simp [register_agent, ha, h0]
  · intro ha h0
    refine ⟨?_, ?_, ?_⟩
    · simp [register_agent, ha, h0]
    · simp [register_agent, ha, h0, mapSet]
    · intro other ho
      simp [register_agent, ha, h0, mapSet, ho]

theorem beliefGenesisStep_beliefs (st : BeliefsSt) (b : Belief) :
    (beliefGenesisStep st b).beliefs = mapSet st.beliefs b.id b := by
  unfold beliefGenesisStep
  dsimp only
  split <;> rfl

theorem beliefGenesisStep_eff (st : BeliefsSt) (b : Belief) (hid : b.id < U64MAX) :
    effectiveNextId (beliefGenesisStep st b) =
      if effectiveNextId st ≤ b.id then b.id + 1 else effectiveNextId st := by
  unfold beliefGenesisStep effectiveNextId
  dsimp only
  split
  · next h =>
    show (b.id + 1) % U64MOD = b.id + 1
    apply Nat.mod_eq_of_lt
    have := u64max_add_one
    omega
  · next h =>
    rfl

/-- One genesis iteration preserves the id-counter invariant and leaves
the processed id strictly below the counter. -/
theorem beliefGenesisStep_inv (st : BeliefsSt) (b : Belief) (hid : b.id < U64MAX)
    (hinv : BeliefIdInv st) :
    BeliefIdInv (beliefGenesisStep st b) ∧
    b.id < effectiveNextId (beliefGenesisStep st b) ∧
    effectiveNextId st ≤ effectiveNextId (beliefGenesisStep st b) := by
  have heff := beliefGenesisStep_eff st b hid
  have hbel := beliefGenesisStep_beliefs st b
  rcases le_or_lt (effectiveNextId st) b.id with hle | hgt
  · rw [if_pos hle] at heff
    refine ⟨?_, by omega, by omega⟩
    intro i hi
    rw [hbel] at hi
    unfold mapSet at hi
    rw [heff]
    by_cases hib : i = b.id
    · omega
    · rw [if_neg hib] at hi
      have := hinv i hi
      omega
  · rw [if_neg (not_le.mpr hgt)] at heff
    refine ⟨?_, by omega, by omega⟩
    intro i hi
    rw [hbel] at hi
    unfold mapSet at hi
    rw [heff]
    by_cases hib : i = b.id
    · omega
    · rw [if_neg hib] at hi
      exact hinv i hi

/-- Folding the genesis loop over any prefix keeps the invariant and
leaves the counter strictly above every processed id. -/
theorem beliefGenesis_fold_inv (l : List Belief) (st : BeliefsSt)
    (hids : ∀ b ∈ l, b.id < U64MAX) (hinv : BeliefIdInv st) :
    BeliefIdInv (l.foldl beliefGenesisStep st) ∧
    (∀ b ∈ l, b.id < effectiveNextId (l.foldl beliefGenesisStep st)) ∧
    effectiveNextId st ≤ effectiveNextId (l.foldl beliefGenesisStep st) := by
  induction l generalizing st with
  | nil =>
    exact ⟨hinv, by simp, le_refl _⟩
  | cons b l ih =>
    have hid : b.id < U64MAX := hids b (List.mem_cons_self b l)
    obtain ⟨hinv1, hb1, hle1⟩ := beliefGenesisStep_inv st b hid hinv
    obtain ⟨hinv2, hb2, hle2⟩ :=
      ih (beliefGenesisStep st b) (fun c hc => hids c (List.mem_cons_of_mem b hc)) hinv1
    refine ⟨hinv2, ?_, le_trans hle1 hle2⟩
    intro c hc
    rcases List.mem_cons.mp hc with rfl | hcl
    · exact lt_of_lt_of_le hb1 hle2
    · exact hb2 c hcl

/-- C4 (amended): provided every genesis-supplied id is below
`u64::MAX` (so that `id + 1` cannot wrap) and the current counter is
below `u64::MAX`, genesis leaves the effective counter strictly above
every stored and every supplied belief id, and a successful
`create_belief` allocates exactly the current counter value — a not yet
used id — bumps the counter to `id + 1`, and preserves the invariant, so
successive calls allocate strictly increasing ids, starting at 1 on a
fresh store, never reusing an id and never colliding with a
genesis-supplied id. -/
theorem c4_id_counter_dominates (bcfg : List Belief) (st st2 : BeliefsSt)
    (q : String) (v id2 : Nat)
    (hids : ∀ b ∈ bcfg, b.id < U64MAX)
    (hinv : BeliefIdInv st) (hnext : effectiveNextId st < U64MAX)
    (hcreate : create_belief q v st = (Except.ok id2, st2)) :
    BeliefIdInv (beliefGenesis bcfg) ∧
    (∀ b ∈ bcfg, b.id < effectiveNextId (beliefGenesis bcfg)) ∧
    id2 = effectiveNextId st ∧
    effectiveNextId st2 = id2 + 1 ∧
    st.beliefs id2 = none ∧
    BeliefIdInv st2 := by
  have hempty : BeliefIdInv ⟨fun _ => none, none, fun _ => none⟩ := by
    intro i hi
    simp [Option.isSome] at hi
  obtain ⟨hg1, hg2, _⟩ :=
    beliefGenesis_fold_inv bcfg ⟨fun _ => none, none, fun _ => none⟩ hids hempty
  refine ⟨hg1, hg2, ?_⟩
  unfold create_belief at hcreate
  split at hcreate
  · exact absurd hcreate (by simp)
  split at hcreate
  · exact absurd hcreate (by simp)
  rw [Prod.mk.injEq] at hcreate
  obtain ⟨h1, h2⟩ := hcreate
  have hid2 : st.next_belief_id.getD 1 = id2 := by
    injection h1
  have heq : effectiveNextId st = id2 := hid2
  subst h2
  have hmod : (st.next_belief_id.getD 1 + 1) % U64MOD = id2 + 1 := by
    rw [hid2]
    apply Nat.mod_eq_of_lt
    have := u64max_add_one
    omega
  refine ⟨heq.symm, hmod, ?_, ?_⟩
  · cases hcase : st.beliefs id2 with
    | none => rfl
    | some b =>
      have : id2 < effectiveNextId st := by
        apply hinv
        rw [hcase]
        rfl
      omega
  · intro i hi
    have hi2 : (mapSet st.beliefs (st.next_belief_id.getD 1)
        ⟨st.next_belief_id.getD 1, q, v, 0⟩ i).isSome := hi
    unfold mapSet at hi2
    show i < (st.next_belief_id.getD 1 + 1) % U64MOD
    rw [hmod]
    by_cases hic : i = st.next_belief_id.getD 1
    · omega
    · rw [if_neg hic] at hi2
      have h3 := hinv i hi2
      unfold effectiveNextId at h3
      omega

/-- C4 witness: on the fresh store, `create_belief "q" 100` allocates
id 1, bumps the counter to 2, and the invariant holds for genesis with
ids `[3]`. -/
theorem c4_id_counter_dominates_witness :
    BeliefIdInv (beliefGenesis [⟨3, "a", 0, 0⟩]) ∧
    (∀ b ∈ [(⟨3, "a", 0, 0⟩ : Belief)],
      b.id < effectiveNextId (beliefGenesis [⟨3, "a", 0, 0⟩])) ∧
    1 = effectiveNextId emptyBeliefsSt ∧
    effectiveNextId (create_belief "q" 100 emptyBeliefsSt).2 = 1 + 1 ∧
    emptyBeliefsSt.beliefs 1 = none ∧
    BeliefIdInv (create_belief "q" 100 emptyBeliefsSt).2 :=
  c4_id_counter_dominates [⟨3, "a", 0, 0⟩] emptyBeliefsSt
    (create_belief "q" 100 emptyBeliefsSt).2 "q" 100 1
    (by
      intro b hb
      obtain rfl := List.mem_singleton.mp hb
      decide)
    (by intro i hi; simp [emptyBeliefsSt, Option.isSome] at hi)
    (by decide)
    rfl

/-- C4 counterexample: a genesis belief with id `u64::MAX` wraps the
counter (`id + 1` is a `u64` addition) to 0, which is not strictly
above the supplied id — the claim fails for arbitrary ids. -/
theorem c4_genesis_id_u64max_wraps_counter :
    ((beliefGenesis [⟨U64MAX, "q", 0, 0⟩]).beliefs U64MAX).isSome = true ∧
    effectiveNextId (beliefGenesis [⟨U64MAX, "q", 0, 0⟩]) = 0 ∧
    ¬ U64MAX < effectiveNextId (beliefGenesis [⟨U64MAX, "q", 0, 0⟩]) :=
  ⟨by decide, by decide, by decide⟩

/-- C7 witness: re-registering address 5 (stake 0) fails
`AlreadyRegistered` with the state unchanged. -/
theorem c7_register_exactly_once_witness :
    register_agent 5 0 ⟨fun i => if i = 5 then some ⟨10, 100⟩ else none⟩ =
      (Except.error "Agent already registered",
       ⟨fun i => if i = 5 then some ⟨10, 100⟩ else none⟩) :=
  (c7_register_exactly_once 5 0 ⟨fun i => if i = 5 then some ⟨10, 100⟩ else none⟩).1
    ⟨10, 100⟩ (by decide)

/-- `update_aggregate` raises each of its errors before any state
write: an error result comes with the input state unchanged. -/
theorem update_aggregate_error_st (belief_id value weight : Nat) (st : BeliefsSt)
    (e : String) (h : (update_aggregate belief_id value weight st).1 = Except.error e) :
    (update_aggregate belief_id value weight st).2 = st := by
  unfold update_aggregate at h ⊢
  by_cases hv : value > SCALE
  · rw [if_pos hv]
  · rw [if_neg hv] at h ⊢
    cases hbel : st.beliefs belief_id with
    | none => rfl
    | some b =>
      rw [hbel] at h
      exact absurd h (by simp)

/-- Exhaustive shape of `submit_belief`: either it fails with the input
state unchanged, or it succeeds, leaving the agent state untouched,
threading the belief state written by `update_aggregate`, and appending
exactly the record `⟨sender, belief_id, value, weight, 0⟩`. -/
theorem submit_belief_cases (sender belief_id value : Nat) (st : SysSt) :
    (∃ e, submit_belief sender belief_id value st = (Except.error e, st)) ∨
    (∃ weight agg,
      get_weight sender st.agentSt = Except.ok weight ∧ weight ≠ 0 ∧
      (update_aggregate belief_id value weight st.beliefSt).1 = Except.ok agg ∧
      submit_belief sender belief_id value st =
        (Except.ok (),
         ⟨st.agentSt, (update_aggregate belief_id value weight st.beliefSt).2,
          st.submissions ++ [⟨sender, belief_id, value, weight, 0⟩]⟩)) := by
  unfold submit_belief
  by_cases hv : value > SCALE
  · exact Or.inl ⟨_, by rw [if_pos hv]⟩
  · rw [if_neg hv]
    cases hga : get_weight sender st.agentSt with
    | error e => exact Or.inl ⟨e, rfl⟩
    | ok weight =>
      dsimp only
      by_cases hw0 : weight = 0
      · rw [if_pos hw0]
        exact Or.inl ⟨_, rfl⟩
      · rw [if_neg hw0]
        rcases hup : update_aggregate belief_id value weight st.beliefSt with ⟨r, bst⟩
        cases r with
        | error e =>
          refine Or.inl ⟨e, ?_⟩
          have hbst : bst = st.beliefSt := by
            have h2 : (update_aggregate belief_id value weight st.beliefSt).2 = bst := by
              rw [hup]
            rw [← h2]
            exact update_aggregate_error_st belief_id value weight st.beliefSt e
              (by rw [hup])
          rw [hbst]
        | ok agg =>
          refine Or.inr ⟨weight, agg, rfl, hw0, by rw [hup], ?_⟩
          rw [hup]

/-- C5: `submit_belief` is atomic and exact on the log: every failing
call returns with the whole state (agents, beliefs, submission log)
unchanged, and every successful call grows the submission log by
exactly one entry. -/
theorem c5_submit_atomicity (sender belief_id value : Nat) (st st2 : SysSt) :
    (∀ e, submit_belief sender belief_id value st = (Except.error e, st2) → st2 = st) ∧
    (submit_belief sender belief_id value st = (Except.ok (), st2) →
      st2.submissions.length = st.submissions.length + 1) := by
  rcases submit_belief_cases sender belief_id value st with
    ⟨e, hs⟩ | ⟨weight, agg, hga, hw0, hok, hs⟩
  · constructor
    · intro e2 h
      rw [hs] at h
      injection h with h1 h2
      exact h2.symm
    · intro h
      rw [hs] at h
      exact absurd h (by simp)
  · constructor
    · intro e2 h
      rw [hs] at h
      exact absurd h (by simp)
    · intro h
      rw [hs] at h
      injection h with h1 h2
      rw [← h2]
      simp

/-- C5 witness: on the one-agent-one-belief state a successful submit
grows the log from 0 to 1 entries. -/
theorem c5_submit_atomicity_witness :
    (submit_belief 5 1 7000 oneAgentOneBeliefSys).2.submissions.length =
      oneAgentOneBeliefSys.submissions.length + 1 :=
  (c5_submit_atomicity 5 1 7000 oneAgentOneBeliefSys
    (submit_belief 5 1 7000 oneAgentOneBeliefSys).2).2 rfl

/-- C8 (amended): every successful submit appends exactly one record
holding the caller's address, the belief id, the submitted value, the
weight returned by the agent registry, and a `timestamp` field that is
always 0; the record sits at log position `len(log before append)`, so
its position — not any stored field — is its sequence index. -/
theorem c8_submission_record_amended (sender belief_id value weight : Nat)
    (st st2 : SysSt)
    (hw : get_weight sender st.agentSt = Except.ok weight)
    (hs : submit_belief sender belief_id value st = (Except.ok (), st2)) :
    st2.submissions = st.submissions ++ [⟨sender, belief_id, value, weight, 0⟩] ∧
    st2.submissions[st.submissions.length]? =
      some ⟨sender, belief_id, value, weight, 0⟩ := by
  rcases submit_belief_cases sender belief_id value st with
    ⟨e, hcase⟩ | ⟨weight2, agg, hga, hw0, hok, hcase⟩
  · rw [hcase] at hs
    exact absurd hs (by simp)
  · have hww : weight2 = weight := by
      rw [hga] at hw
      injection hw
    subst hww
    rw [hcase] at hs
    injection hs with h1 h2
    rw [← h2]
    exact ⟨rfl, list_getElem?_concat st.submissions _⟩

/-- The C8 trace: two successful submits by agent 5 (weight 1000) on
belief 1. -/
def c8Sys1 : SysSt := (submit_belief 5 1 7000 oneAgentOneBeliefSys).2

def c8Sys2 : SysSt := (submit_belief 5 1 6000 c8Sys1).2

/-- C8 counterexample: before the second append the log has length 1,
but the appended record is `⟨5, 1, 6000, 1000, 0⟩` — its fifth (and only
remaining) field is the constant-0 `timestamp`, not the sequence index
1: the record does not contain a sequence index equal to the pre-append
log length. -/
theorem c8_no_sequence_field :
    c8Sys1.submissions.length = 1 ∧
    c8Sys2.submissions[1]? = some ⟨5, 1, 6000, 1000, 0⟩ ∧
    (⟨5, 1, 6000, 1000, 0⟩ : Submission).timestamp ≠ 1 :=
  ⟨by decide, by decide, by decide⟩

/-- C8 witness: the first submit of the trace appends exactly
`⟨5, 1, 7000, 1000, 0⟩` at position 0. -/
theorem c8_submission_record_amended_witness :
    c8Sys1.submissions =
      oneAgentOneBeliefSys.submissions ++ [⟨5, 1, 7000, 1000, 0⟩] ∧
    c8Sys1.submissions[oneAgentOneBeliefSys.submissions.length]? =
      some ⟨5, 1, 7000, 1000, 0⟩ :=
  c8_submission_record_amended 5 1 7000 1000 oneAgentOneBeliefSys c8Sys1
    rfl rfl

/-- C9: scoring is dormant.  `submit_belief` never changes the agent
state (success or failure: the computed `score_delta` is discarded),
and no `CallMessage` of the agent module can change the score of any
registered agent — `update_score` is unreachable from the public call
surface. -/
theorem c9_scoring_dormant (sender belief_id value addr : Nat) (st : SysSt)
    (msg : AgentCallMessage) (ast : AgentSt) (a : Agent)
    (ha : ast.agents addr = some a) :
    (submit_belief sender belief_id value st).2.agentSt = st.agentSt ∧
    ∃ a2, (agentCall msg sender ast).2.agents addr = some a2 ∧ a2.score = a.score := by
  constructor
  · rcases submit_belief_cases sender belief_id value st with
      ⟨e, hcase⟩ | ⟨weight, agg, hga, hw0, hok, hcase⟩
    · rw [hcase]
    · rw [hcase]
  · cases msg with
    | RegisterAgent s =>
      show ∃ a2, (register_agent sender s ast).2.agents addr = some a2 ∧ _
      unfold register_agent
      cases hsend : ast.agents sender with
      | some a3 => exact ⟨a, ha, rfl⟩
      | none =>
        by_cases h0 : s = 0
        · rw [if_pos h0]
          exact ⟨a, ha, rfl⟩
        · rw [if_neg h0]
          refine ⟨a, ?_, rfl⟩
          show mapSet ast.agents sender ⟨s, 100⟩ addr = some a
          unfold mapSet
          by_cases hadd : addr = sender
          · rw [hadd] at ha
            rw [hsend] at ha
            cases ha
          · rw [if_neg hadd]
            exact ha
    | AddStake amt =>
      show ∃ a2, (add_stake sender amt ast).2.agents addr = some a2 ∧ _
      unfold add_stake
      cases hsend : ast.agents sender with
      | none => exact ⟨a, ha, rfl⟩
      | some a3 =>
        by_cases hadd : addr = sender
        · refine ⟨⟨sadd64 a3.stake amt, a3.score⟩, ?_, ?_⟩
          · show mapSet ast.agents sender _ addr = _
            unfold mapSet
            rw [if_pos hadd]
          · subst hadd
            rw [hsend] at ha
            injection ha with ha
            rw [← ha]
        · refine ⟨a, ?_, rfl⟩
          show mapSet ast.agents sender _ addr = some a
          unfold mapSet
          rw [if_neg hadd]
          exact ha
    | WithdrawStake amt =>
      show ∃ a2, (withdraw_stake sender amt ast).2.agents addr = some a2 ∧ _
      unfold withdraw_stake
      cases hsend : ast.agents sender with
      | none => exact ⟨a, ha, rfl⟩
      | some a3 =>
        dsimp only
        by_cases hlt : a3.stake < amt
        · rw [if_pos hlt]
          exact ⟨a, ha, rfl⟩
        · rw [if_neg hlt]
          by_cases hadd : addr = sender
          · refine ⟨⟨a3.stake - amt, a3.score⟩, ?_, ?_⟩
            · show mapSet ast.agents sender _ addr = _
              unfold mapSet
              rw [if_pos hadd]
            · subst hadd
              rw [hsend] at ha
              injection ha with ha
              rw [← ha]
          · refine ⟨a, ?_, rfl⟩
            show mapSet ast.agents sender _ addr = some a
            unfold mapSet
            rw [if_neg hadd]
            exact ha

/-- C9 witness: a successful submit leaves the agent state untouched,
and an `AddStake` call by agent 5 keeps agent 5's score at 100. -/
theorem c9_scoring_dormant_witness :
    (submit_belief 5 1 7000 oneAgentOneBeliefSys).2.agentSt =
      oneAgentOneBeliefSys.agentSt ∧
    ∃ a2, (agentCall (AgentCallMessage.AddStake 7) 5
        oneAgentOneBeliefSys.agentSt).2.agents 5 = some a2 ∧
      a2.score = (⟨10, 100⟩ : Agent).score :=
  c9_scoring_dormant 5 1 7000 5 oneAgentOneBeliefSys
    (AgentCallMessage.AddStake 7) oneAgentOneBeliefSys.agentSt ⟨10, 100⟩ (by decide)

/-- C10: `update_aggregate` accepts weight 0 on an existing belief with
`value ≤ SCALE`: it succeeds and bumps the submission counter; with
`total_weight = 0` it overwrites the aggregate with `value` while
`total_weight` stays 0, and with `total_weight > 0` it leaves both the
aggregate and the total weight exactly unchanged. -/
theorem c10_zero_weight_update (st : BeliefsSt) (belief_id value : Nat) (b : Belief)
    (hb : st.beliefs belief_id = some b) (hv : value ≤ SCALE)
    (ha : b.aggregate ≤ U64MAX) (hw0 : b.total_weight ≤ U64MAX) :
    (update_aggregate belief_id value 0 st).1 =
      Except.ok (if b.total_weight = 0 then value else b.aggregate) ∧
    (update_aggregate belief_id value 0 st).2.beliefs belief_id =
      some ⟨b.id, b.question, (if b.total_weight = 0 then value else b.aggregate),
            b.total_weight⟩ ∧
    (update_aggregate belief_id value 0 st).2.submission_counts belief_id =
      some (((st.submission_counts belief_id).getD 0 + 1) % U64MOD) := by
  have hsadd : sadd64 b.total_weight 0 = b.total_weight := by
    unfold sadd64
    omega
  have hagg : (if 0 < sadd64 b.total_weight 0 then
      (b.aggregate * b.total_weight + value * 0) % U128MOD
        / sadd64 b.total_weight 0 % U64MOD
    else value) = (if b.total_weight = 0 then value else b.aggregate) := by
    rw [hsadd]
    by_cases h0 : b.total_weight = 0
    · simp [h0]
    · have hpos : 0 < b.total_weight := Nat.pos_of_ne_zero h0
      rw [if_pos hpos, if_neg h0]
      have hprod : b.aggregate * b.total_weight + value * 0
          = b.aggregate * b.total_weight := by
        ring
      rw [hprod]
      have hlt : b.aggregate * b.total_weight < U128MOD := by
        calc b.aggregate * b.total_weight ≤ U64MAX * U64MAX := Nat.mul_le_mul ha hw0
          _ < U128MOD := by decide
      rw [Nat.mod_eq_of_lt hlt, Nat.mul_div_cancel _ hpos]
      apply Nat.mod_eq_of_lt
      have := u64max_add_one
      omega
  refine ⟨?_, ?_, ?_⟩
  · simp only [update_aggregate, if_neg (not_lt.mpr hv), hb]
    exact congrArg Except.ok hagg
  · simp only [update_aggregate, if_neg (not_lt.mpr hv), hb, mapSet]
    rw [hagg, hsadd]
    simp
  · simp only [update_aggregate, if_neg (not_lt.mpr hv), hb, mapSet]
    simp

/-- C10 witness: on belief 1 of the C8 trace (`aggregate 7000`,
`total_weight 1000`), a zero-weight call with value 0 succeeds, leaves
aggregate 7000 and total weight 1000, and bumps the counter to 2. -/
theorem c10_zero_weight_update_witness :
    (update_aggregate 1 0 0 c8Sys1.beliefSt).1 =
      Except.ok (if (1000 : Nat) = 0 then 0 else 7000) ∧
    (update_aggregate 1 0 0 c8Sys1.beliefSt).2.beliefs 1 =
      some ⟨1, "q", (if (1000 : Nat) = 0 then 0 else 7000), 1000⟩ ∧
    (update_aggregate 1 0 0 c8Sys1.beliefSt).2.submission_counts 1 =
      some (((c8Sys1.beliefSt.submission_counts 1).getD 0 + 1) % U64MOD) :=
  c10_zero_weight_update c8Sys1.beliefSt 1 0 ⟨1, "q", 7000, 1000⟩
    (by decide) (by decide) (by decide) (by decide)

end Veritas

